import Mathlib

/-!
Verification of rustree (`src/main.rs`), a Rust S3 CLI for copying objects
between buckets. Rust strings are modelled as lists of characters, S3 client
calls as explicit oracle functions, and panics / fatal errors with `Option`
and `Except`. The `cp` engine lives in `cp_action` and in the pagination loop
of `main` (that loop is currently commented out in the file in favour of a
scheduler demo, but it is the engine logic the specification describes and the
claims cite).
-/

/-- Rust `&str` / `String`, modelled as a list of characters. -/
abbrev Str := List Char

/-- Strips `pat` once from the front of `s`: `some rest` when `s = pat ++ rest`,
and `none` when `pat` is not a prefix of `s`. Building block for Rust's
`str::starts_with` and `str::trim_start_matches`. -/
def stripPre : Str → Str → Option Str
  | [], s => some s
  | _ :: _, [] => none
  | a :: p, b :: s => if a = b then stripPre p s else none

/-- Fuel-driven core of Rust `str::trim_start_matches(pat : &str)`: repeatedly
removes `pat` from the front while it is a non-empty prefix. The fuel only
serves termination; `s.length` steps always suffice. -/
def tsmAux : Nat → Str → Str → Str
  | 0, s, _ => s
  | fuel + 1, s, pat =>
    if pat = [] then s
    else
      match stripPre pat s with
      | some rest => tsmAux fuel rest pat
      | none => s

/-- Rust `str::trim_start_matches(pat : &str)` — removes every leading
occurrence of `pat` (repeatedly, not just once). -/
def trim_start_matches_str (s pat : Str) : Str := tsmAux s.length s pat

/-- Rust `str::trim_start_matches(c : char)` — removes every leading `c`. -/
def trim_start_matches_char (s : Str) (c : Char) : Str := s.dropWhile (· == c)

/-- Rust `str::trim_end_matches(c : char)` — removes every trailing `c`. -/
def trim_end_matches_char (s : Str) (c : Char) : Str :=
  (s.reverse.dropWhile (· == c)).reverse

/-- Relative key computed in `cp_action`:
`get_obj_req.key.trim_start_matches(&src_path.key).trim_start_matches('/')`. -/
def relKeyOf (src_key k : Str) : Str :=
  trim_start_matches_char (trim_start_matches_str k src_key) '/'

/-- Destination key computed in `cp_action`: the destination path's key with
trailing slashes trimmed, one slash, then the relative key (the
`format!` call on `dst_path_key` and `rel_key`). -/
def dstKeyOf (dst_key rel_key : Str) : Str :=
  trim_end_matches_char dst_key '/' ++ '/' :: rel_key

/-- Claim-side definition (follows claim C1's wording, not the source): strip
the source prefix from the front of the key exactly once. -/
def strip_pre_once (pre s : Str) : Str :=
  match stripPre pre s with
  | some rest => rest
  | none => s

/-- Claim-side definition (follows claim C1's wording, not the source): strip
a single leading slash. -/
def strip_one_leading_slash : Str → Str
  | '/' :: t => t
  | s => s

/-- Destination key as claim C1 words it: destination prefix with trailing
slashes trimmed, one slash, then the key with the source prefix stripped
exactly once and a single leading slash removed. -/
def claimedDstKeyC1 (src_pre dst_pre k : Str) : Str :=
  trim_end_matches_char dst_pre '/' ++
    '/' :: strip_one_leading_slash (strip_pre_once src_pre k)

/-- `n` concatenated copies of `p`; used to describe keys on which the source
prefix occurs several times in a row at the front. -/
def repCat (p : Str) : Nat → Str
  | 0 => []
  | n + 1 => p ++ repCat p n

/-- The fields of `rusoto_s3::Object` that the program reads (`key`; `size`
stands in for the remaining unused optional fields). All are optional. -/
structure S3Object where
  key : Option Str
  size : Option Int
deriving DecidableEq

/-- The fields of `rusoto_s3::GetObjectRequest` that `cp_action` sets. -/
structure GetObjectRequest where
  bucket : Str
  key : Str
deriving DecidableEq

/-- The fields of `rusoto_s3::GetObjectOutput` that `cp_action` reads, plus
`content_encoding` (read by nothing, relevant to claim C3). The body stream
is modelled as an optional byte string. -/
structure GetObjectOutput where
  body : Option Str
  content_disposition : Option Str
  content_encoding : Option Str
  content_language : Option Str
  content_length : Option Int
  content_type : Option Str
  metadata : Option (List (Str × Str))
deriving DecidableEq

/-- `rusoto_s3::PutObjectRequest`; fields that `cp_action`'s literal leaves to
`..Default::default()` default to `none` here. -/
structure PutObjectRequest where
  bucket : Str
  key : Str
  body : Option Str := none
  content_disposition : Option Str := none
  content_encoding : Option Str := none
  content_language : Option Str := none
  content_length : Option Int := none
  content_type : Option Str := none
  metadata : Option (List (Str × Str)) := none
deriving DecidableEq

/-- Opaque success value of a put call. -/
structure PutObjectOutput where
  dummy : Unit := ()
deriving DecidableEq

/-- The fields of `rusoto_s3::ListObjectsV2Output` that `main`'s pagination
loop reads. All are optional in the wire type. -/
structure ListObjectsV2Output where
  contents : Option (List S3Object)
  is_truncated : Option Bool
  next_continuation_token : Option Str
deriving DecidableEq

/-- The `PutObjectRequest` literal built in `cp_action`: bucket, key, and six
fields copied from the get output; everything else comes from
`..Default::default()` (so `content_encoding` stays `none`). -/
def mkPutObjReq (dst_bucket dst_key : Str) (g : GetObjectOutput) :
    PutObjectRequest :=
  { bucket := dst_bucket
    key := dst_key
    body := g.body
    content_disposition := g.content_disposition
    content_language := g.content_language
    content_length := g.content_length
    content_type := g.content_type
    metadata := g.metadata }

/-- Which S3 call produced a per-object failure. -/
inductive Stage where
  | get
  | put
deriving DecidableEq

/-- Terminal state of one object's transfer. `panicked` models a Rust
`unwrap` panic on an absent optional field. -/
inductive Outcome where
  | success
  | failure (stage : Stage) (cause : Str)
  | panicked
deriving DecidableEq

/-- One object's transfer, as chained in `cp_action`: build the get request
(`matching_obj.key.clone().unwrap()` — panic when the key is absent), compute
the relative key, run the get; on success unwrap `content_length` (panic when
absent), build the put request from the get output and run it. `getFn` and
`putFn` model the source and destination S3 clients. Returns the outcome
together with every put request that was issued for this object. -/
def transferOne (getFn : GetObjectRequest → Except Str GetObjectOutput)
    (putFn : PutObjectRequest → Except Str PutObjectOutput)
    (src_bucket src_key dst_bucket dst_key : Str) (obj : S3Object) :
    Outcome × List PutObjectRequest :=
  match obj.key with
  | none => (Outcome.panicked, [])
  | some k =>
    let get_obj_req : GetObjectRequest := { bucket := src_bucket, key := k }
    let rel_key := relKeyOf src_key k
    match getFn get_obj_req with
    | Except.error e => (Outcome.failure Stage.get e, [])
    | Except.ok out =>
      match out.content_length with
      | none => (Outcome.panicked, [])
      | some _ =>
        let put_obj_req := mkPutObjReq dst_bucket (dstKeyOf dst_key rel_key) out
        match putFn put_obj_req with
        | Except.error e => (Outcome.failure Stage.put e, [put_obj_req])
        | Except.ok _ => (Outcome.success, [put_obj_req])

/-- The per-object futures spawned by `cp_action`'s loop, one independent
transfer per listed object, in listing order. -/
def runTransfers (getFn : GetObjectRequest → Except Str GetObjectOutput)
    (putFn : PutObjectRequest → Except Str PutObjectOutput)
    (src_bucket src_key dst_bucket dst_key : Str) (objs : List S3Object) :
    List (Outcome × List PutObjectRequest) :=
  objs.map (transferOne getFn putFn src_bucket src_key dst_bucket dst_key)

/-- The parsed `s3://bucket/key` path of the source. -/
structure S3Path where
  bucket : Str
  key : Str
deriving DecidableEq

/-- Capture groups of the regex `^s3://(.+?)(?:/(.*))?$` under the regex
crate's leftmost-first semantics. The lazy non-empty group 1 is the shortest
non-empty chunk after `s3://` such that what follows is empty or starts with
`/`; so group 1 runs up to the first `/` at position one or later (or to the
end when there is none), and when a `/` follows, group 2 captures everything
after that first `/`. `none` means the regex does not match at all. -/
def s3Captures (s : Str) : Option (Str × Option Str) :=
  match stripPre ("s3://".toList) s with
  | none => none
  | some r =>
    match r with
    | [] => none
    | c :: rest =>
      match rest.dropWhile (· != '/') with
      | [] => some (c :: rest.takeWhile (· != '/'), none)
      | _ :: ks => some (c :: rest.takeWhile (· != '/'), some ks)

/-- `S3Path::from_str`. The source calls `.unwrap()` on the regex captures,
so a non-matching input panics — modelled as `none`; on a match the key
defaults to the empty string when group 2 is absent. The function never
builds an `Err`, although its Rust signature returns `Result`. -/
def S3Path.from_str (s : Str) : Option S3Path :=
  match s3Captures s with
  | none => none
  | some (b, g2) => some { bucket := b, key := g2.getD [] }

/-- The `while is_truncated` pagination loop in `main`'s `cp` branch. Each
iteration issues `list_objects_v2` with the carried continuation token
(`fetch tok = none` models a failed call, which `?` propagates), unwraps
`contents` (panic when absent — also a fatally failed run), hands the page's
objects to `cp_action`, then sets `is_truncated` from the page with
`unwrap_or(false)` and carries the page's `next_continuation_token` into the
next request. Returns the objects handed to `cp_action`, in order, paired
with whether the loop finished without a fatal error. `fuel` only bounds the
iterations the model may take. -/
def cpLoopAux (fetch : Option Str → Option ListObjectsV2Output) :
    Nat → Bool → Option Str → List S3Object × Bool
  | _, false, _ => ([], true)
  | 0, true, _ => ([], false)
  | fuel + 1, true, tok =>
    match fetch tok with
    | none => ([], false)
    | some out =>
      match out.contents with
      | none => ([], false)
      | some objs =>
        let r := cpLoopAux fetch fuel (out.is_truncated.getD false)
          out.next_continuation_token
        (objs ++ r.1, r.2)

/-- The backend serves `pages` in sequence: the request carrying `tok`
returns the first page, and each page's `next_continuation_token` fetches the
page after it. -/
def FetchChain (fetch : Option Str → Option ListObjectsV2Output) :
    Option Str → List ListObjectsV2Output → Prop
  | _, [] => True
  | tok, p :: ps =>
    fetch tok = some p ∧ FetchChain fetch p.next_continuation_token ps

/-- A listing spanning the given pages: every page before the last reports
`is_truncated = Some(true)`, the last reports false or absent, and every page
carries a `contents` list. -/
inductive PagesShape : List ListObjectsV2Output → Prop
  | last (p : ListObjectsV2Output) : p.is_truncated.getD false = false →
      p.contents.isSome = true → PagesShape [p]
  | cons (p : ListObjectsV2Output) (ps : List ListObjectsV2Output) :
      p.is_truncated = some true → p.contents.isSome = true →
      PagesShape ps → PagesShape (p :: ps)

/-- All objects carried by a list of pages, in page order. -/
def pagesObjs (pages : List ListObjectsV2Output) : List S3Object :=
  pages.foldr (fun p acc => p.contents.getD [] ++ acc) []

/-- The whole `cp` run of `main`: paginate (a failed list call or the
`contents` unwrap makes the run fail fatally), spawn one transfer per listed
object, print-and-swallow each spawned future's error (`map_err` to `()`
around `eprintln!`), drain the runtime, and return `Ok(())`. First component:
whether the process exits with status zero — the spawned futures' results
never reach it. Second component: the per-object transfer results. -/
def runCp (fetch : Option Str → Option ListObjectsV2Output) (fuel : Nat)
    (getFn : GetObjectRequest → Except Str GetObjectOutput)
    (putFn : PutObjectRequest → Except Str PutObjectOutput)
    (src_bucket src_key dst_bucket dst_key : Str) :
    Bool × List (Outcome × List PutObjectRequest) :=
  let r := cpLoopAux fetch fuel true none
  (r.2, runTransfers getFn putFn src_bucket src_key dst_bucket dst_key r.1)

/-- Scheduler events: a task is handed to the runtime, or reaches its
terminal state. -/
inductive SchedEvent where
  | spawn (i : Nat)
  | finish (i : Nat)
deriving DecidableEq

/-- The dispatch loop of `cp_action` — `for fut in futs { rt.spawn(...) }` —
emits one spawn per object and never waits between them: tokio's
`Runtime::spawn` only enqueues the future and returns immediately. -/
def cpSpawnEvents (n : Nat) : List SchedEvent :=
  (List.range n).map SchedEvent.spawn

/-- Indices spawned along a trace, in order. -/
def spawnIdxs (tr : List SchedEvent) : List Nat :=
  tr.filterMap fun e =>
    match e with
    | SchedEvent.spawn i => some i
    | SchedEvent.finish _ => none

/-- Checks that every finish event follows the matching spawn event. -/
def finishAfterSpawn : List Nat → List SchedEvent → Bool
  | _, [] => true
  | seen, SchedEvent.spawn i :: rest => finishAfterSpawn (i :: seen) rest
  | seen, SchedEvent.finish i :: rest =>
    seen.contains i && finishAfterSpawn seen rest

/-- An execution the runtime can produce for `n` spawned tasks: the
dispatcher emits the spawns in listing order without ever waiting for a slot,
and a task finishes only after it was spawned. -/
def ValidExecution (n : Nat) (tr : List SchedEvent) : Prop :=
  spawnIdxs tr = List.range n ∧ finishAfterSpawn [] tr = true

/-- Highest number of simultaneously in-flight tasks along a trace, starting
from `cur` tasks in flight. -/
def inFlightMax : Nat → List SchedEvent → Nat
  | cur, [] => cur
  | cur, SchedEvent.spawn _ :: rest => max (cur + 1) (inFlightMax (cur + 1) rest)
  | cur, SchedEvent.finish _ :: rest => inFlightMax (cur - 1) rest

/-- A listed object with a present key, under source prefix `p/`. -/
def exObj1 : S3Object := { key := some ("p/x".toList), size := none }

/-- A second listed object with a present key. -/
def exObj2 : S3Object := { key := some ("p/y".toList), size := none }

/-- First page of a two-page listing: truncated, with a continuation token. -/
def exPage1 : ListObjectsV2Output :=
  { contents := some [exObj1]
    is_truncated := some true
    next_continuation_token := some ("tok1".toList) }

/-- Second and last page of the listing: not truncated. -/
def exPage2 : ListObjectsV2Output :=
  { contents := some [exObj2]
    is_truncated := some false
    next_continuation_token := none }

/-- A backend serving the two example pages keyed by continuation token. -/
def exFetch : Option Str → Option ListObjectsV2Output
  | none => some exPage1
  | some t => if t = "tok1".toList then some exPage2 else none

/-- A backend serving a single, final page holding `exObj1`. -/
def exFetchOne : Option Str → Option ListObjectsV2Output
  | none => some
      { contents := some [exObj1]
        is_truncated := some false
        next_continuation_token := none }
  | some _ => none

/-- A source client whose every get fails. -/
def exGetFail : GetObjectRequest → Except Str GetObjectOutput :=
  fun _ => Except.error ("boom".toList)

/-- A destination client whose every put succeeds. -/
def exPutOk : PutObjectRequest → Except Str PutObjectOutput :=
  fun _ => Except.ok { dummy := () }

/-- A listed object descriptor with an absent key. -/
def exObjNoKey : S3Object := { key := none, size := none }

/-- A source client whose gets succeed but report no `content_length`. -/
def exGetNoLen : GetObjectRequest → Except Str GetObjectOutput :=
  fun _ => Except.ok
    { body := none
      content_disposition := none
      content_encoding := none
      content_language := none
      content_length := none
      content_type := none
      metadata := none }

theorem stripPre_append : ∀ p r : Str, stripPre p (p ++ r) = some r := by
  intro p r
  induction p with
  | nil => rfl
  | cons a t ih => simp [stripPre, ih]

theorem stripPre_none_ne_nil {p r : Str} (h : stripPre p r = none) : p ≠ [] := by
  intro hp
  subst hp
  simp [stripPre] at h

theorem tsm_repCat : ∀ (m fuel : Nat) (p r : Str),
    stripPre p r = none → (repCat p m).length ≤ fuel →
    tsmAux fuel (repCat p m ++ r) p = r := by
  intro m
  induction m with
  | zero =>
    intro fuel p r h _
    cases fuel with
    | zero => rfl
    | succ f =>
      have hp : p ≠ [] := stripPre_none_ne_nil h
      show tsmAux (f + 1) ([] ++ r) p = r
      simp [tsmAux, hp, h]
  | succ m ih =>
    intro fuel p r h hfuel
    have hp : p ≠ [] := stripPre_none_ne_nil h
    have hplen : 1 ≤ p.length := by
      cases p with
      | nil => exact absurd rfl hp
      | cons a t => simp
    have hlen : (repCat p (m + 1)).length = p.length + (repCat p m).length := by
      simp [repCat]
    cases fuel with
    | zero => omega
    | succ f =>
      have hassoc : repCat p (m + 1) ++ r = p ++ (repCat p m ++ r) := by
        simp [repCat, List.append_assoc]
      rw [hassoc]
      have hrec : tsmAux f (repCat p m ++ r) p = r := by
        refine ih f p r h ?_
        omega
      simp [tsmAux, hp, stripPre_append p (repCat p m ++ r), hrec]

theorem cpLoopAux_chain (fetch : Option Str → Option ListObjectsV2Output)
    (pages : List ListObjectsV2Output) (hshape : PagesShape pages) :
    ∀ (tok : Option Str) (fuel : Nat), FetchChain fetch tok pages →
      pages.length ≤ fuel →
      cpLoopAux fetch fuel true tok = (pagesObjs pages, true) := by
  induction hshape with
  | last p htrunc hcont =>
    intro tok fuel hchain hfuel
    obtain ⟨objs, hobjs⟩ := Option.isSome_iff_exists.mp hcont
    cases fuel with
    | zero => simp at hfuel
    | succ f =>
      have h1 : fetch tok = some p := hchain.1
      simp [cpLoopAux, h1, hobjs, htrunc, pagesObjs]
  | cons p ps htrunc hcont hps ih =>
    intro tok fuel hchain hfuel
    obtain ⟨objs, hobjs⟩ := Option.isSome_iff_exists.mp hcont
    cases fuel with
    | zero => simp at hfuel
    | succ f =>
      have h1 : fetch tok = some p := hchain.1
      have hrec := ih p.next_continuation_token f hchain.2 (by
        simp at hfuel
        omega)
      simp [cpLoopAux, h1, hobjs, htrunc, hrec, pagesObjs]

theorem spawnIdxs_map_spawn : ∀ l : List Nat,
    spawnIdxs (l.map SchedEvent.spawn) = l := by
  intro l
  induction l with
  | nil => rfl
  | cons a t ih => simp [spawnIdxs] at ih ⊢; exact ih

theorem finishAfterSpawn_spawns : ∀ (l : List Nat) (seen : List Nat),
    finishAfterSpawn seen (l.map SchedEvent.spawn) = true := by
  intro l
  induction l with
  | nil => intro seen; rfl
  | cons a t ih => intro seen; simp [finishAfterSpawn]; exact ih (a :: seen)

theorem inFlightMax_spawns : ∀ (l : List Nat) (cur : Nat),
    inFlightMax cur (l.map SchedEvent.spawn) = cur + l.length := by
  intro l
  induction l with
  | nil => intro cur; rfl
  | cons a t ih => intro cur; simp [inFlightMax, ih]; omega

/-- C1, counterexample: the claim's mapping (strip the source prefix exactly
once, then a single leading slash) disagrees with the code on keys that start
with the source prefix. With source prefix "a/" and key "a/a/b" the code's
`trim_start_matches` strips the prefix repeatedly and yields "d/b", while the
claim's exactly-once rule yields "d/a/b"; with source prefix "p" and key
"p//x" the code strips every leading slash and yields "d/x", while the
claim's single-slash rule yields "d//x". -/
theorem c1_counterexample :
    stripPre ("a/".toList) ("a/a/b".toList) ≠ none ∧
    dstKeyOf ("d".toList) (relKeyOf ("a/".toList) ("a/a/b".toList)) =
      "d/b".toList ∧
    claimedDstKeyC1 ("a/".toList) ("d".toList) ("a/a/b".toList) =
      "d/a/b".toList ∧
    stripPre ("p".toList) ("p//x".toList) ≠ none ∧
    dstKeyOf ("d".toList) (relKeyOf ("p".toList) ("p//x".toList)) =
      "d/x".toList ∧
    claimedDstKeyC1 ("p".toList) ("d".toList) ("p//x".toList) =
      "d//x".toList ∧
    ("d/b".toList ≠ "d/a/b".toList) ∧ ("d/x".toList ≠ "d//x".toList) := by
  decide

/-- C1, amended: for a key of the form `src_pre^m ++ r` with the source
prefix no longer occurring at the front of `r`, the computed destination key
is the destination prefix with all trailing slashes trimmed, exactly one
slash, then `r` with all (not just one) leading slashes stripped — i.e. the
source prefix is stripped repeatedly, not exactly once. -/
theorem c1_dest_key (src_pre dst_pre r : Str) (m : Nat)
    (h : stripPre src_pre r = none) :
    dstKeyOf dst_pre (relKeyOf src_pre (repCat src_pre m ++ r)) =
      trim_end_matches_char dst_pre '/' ++
        '/' :: trim_start_matches_char r '/' := by
  have hlen : (repCat src_pre m).length ≤ (repCat src_pre m ++ r).length := by
    rw [List.length_append]
    exact Nat.le_add_right _ _
  unfold dstKeyOf relKeyOf trim_start_matches_str
  rw [tsm_repCat m ((repCat src_pre m ++ r).length) src_pre r h hlen]

/-- C1, witness for the amended theorem at source prefix "a/", destination
prefix "d/", residue "b" and two repetitions of the prefix. -/
theorem c1_dest_key_witness :
    stripPre ("a/".toList) ("b".toList) = none ∧
    dstKeyOf ("d/".toList)
        (relKeyOf ("a/".toList) (repCat ("a/".toList) 2 ++ "b".toList)) =
      trim_end_matches_char ("d/".toList) '/' ++
        '/' :: trim_start_matches_char ("b".toList) '/' :=
  ⟨by decide, c1_dest_key ("a/".toList) ("d/".toList) ("b".toList) 2 (by decide)⟩

/-- C2, confirmed: when the backend serves an N-page chain (each page fetched
with the previous page's continuation token, pages before the last truncated,
the last not truncated or with the flag absent, contents present), the
pagination loop terminates successfully and hands `cp_action` exactly the
concatenation of all pages' objects, each object exactly once, in page
order. -/
theorem c2_pagination (fetch : Option Str → Option ListObjectsV2Output)
    (pages : List ListObjectsV2Output) (fuel : Nat)
    (hchain : FetchChain fetch none pages) (hshape : PagesShape pages)
    (hfuel : pages.length ≤ fuel) :
    cpLoopAux fetch fuel true none = (pagesObjs pages, true) :=
  cpLoopAux_chain fetch pages hshape none fuel hchain hfuel

/-- C2, witness: a concrete two-page listing is processed completely, each
object once. -/
theorem c2_pagination_witness :
    cpLoopAux exFetch 2 true none = ([exObj1, exObj2], true) :=
  (c2_pagination exFetch [exPage1, exPage2] 2
      ⟨by decide, by decide, trivial⟩
      (PagesShape.cons _ _ (by decide) (by decide)
        (PagesShape.last _ (by decide) (by decide)))
      (by decide)).trans (by decide)

/-- C3, counterexample: `content_encoding` is not among the fields copied
into the put request — the code's struct literal omits it, so it comes from
`Default::default()` and stays unset even when the get response carried an
encoding. -/
theorem c3_counterexample :
    (mkPutObjReq ("db".toList) ("dk".toList)
        { body := some ("bytes".toList)
          content_disposition := none
          content_encoding := some ("gzip".toList)
          content_language := none
          content_length := some 5
          content_type := none
          metadata := none }).content_encoding = none ∧
    (none : Option Str) ≠ some ("gzip".toList) := by
  decide

/-- C3, amended: the put request carries body, content length, content type,
content disposition, content language and user metadata verbatim from the get
response, but content encoding is never copied — it is always `none` on the
put request. -/
theorem c3_put_fields (dst_bucket dst_key : Str) (g : GetObjectOutput) :
    (mkPutObjReq dst_bucket dst_key g).body = g.body ∧
    (mkPutObjReq dst_bucket dst_key g).content_length = g.content_length ∧
    (mkPutObjReq dst_bucket dst_key g).content_type = g.content_type ∧
    (mkPutObjReq dst_bucket dst_key g).content_disposition =
      g.content_disposition ∧
    (mkPutObjReq dst_bucket dst_key g).content_language =
      g.content_language ∧
    (mkPutObjReq dst_bucket dst_key g).metadata = g.metadata ∧
    (mkPutObjReq dst_bucket dst_key g).content_encoding = none :=
  ⟨rfl, rfl, rfl, rfl, rfl, rfl, rfl⟩

/-- C4, counterexample: a run over one listed object whose get fails still
exits with status zero — the spawned future's error is printed and swallowed,
so per-object failures never reach the process exit status, contrary to the
claim's "exits non-zero". -/
theorem c4_counterexample :
    (runCp exFetchOne 1 exGetFail exPutOk ("sb".toList) ("p".toList)
        ("db".toList) ("d".toList)).1 = true ∧
    (runCp exFetchOne 1 exGetFail exPutOk ("sb".toList) ("p".toList)
        ("db".toList) ("d".toList)).2 =
      [(Outcome.failure Stage.get ("boom".toList), [])] := by
  decide

/-- C4, amended: the exit status is zero exactly when pagination succeeded —
it equals the pagination success flag for every choice of get/put behaviour,
so individual transfer failures never make it non-zero — and when the listing
is a well-formed N-page chain the run exits zero and still attempts every
successfully listed object, one transfer per object in listing order. -/
theorem c4_exit_status (fetch : Option Str → Option ListObjectsV2Output)
    (fuel : Nat) (getFn : GetObjectRequest → Except Str GetObjectOutput)
    (putFn : PutObjectRequest → Except Str PutObjectOutput)
    (src_bucket src_key dst_bucket dst_key : Str)
    (pages : List ListObjectsV2Output) :
    (runCp fetch fuel getFn putFn src_bucket src_key dst_bucket dst_key).1 =
      (cpLoopAux fetch fuel true none).2 ∧
    (FetchChain fetch none pages → PagesShape pages → pages.length ≤ fuel →
      (runCp fetch fuel getFn putFn src_bucket src_key dst_bucket
          dst_key).1 = true ∧
      (runCp fetch fuel getFn putFn src_bucket src_key dst_bucket
          dst_key).2 =
        (pagesObjs pages).map
          (transferOne getFn putFn src_bucket src_key dst_bucket dst_key)) := by
  constructor
  · rfl
  · intro hchain hshape hfuel
    have hloop := cpLoopAux_chain fetch pages hshape none fuel hchain hfuel
    constructor
    · simp [runCp, hloop]
    · simp [runCp, runTransfers, hloop]

/-- C4, witness for the amended theorem: the concrete two-page listing with a
source client that always fails still exits zero, with both listed objects
attempted. -/
theorem c4_exit_status_witness :
    (runCp exFetch 2 exGetFail exPutOk ("sb".toList) ("p".toList)
        ("db".toList) ("d".toList)).1 = true ∧
    (runCp exFetch 2 exGetFail exPutOk ("sb".toList) ("p".toList)
        ("db".toList) ("d".toList)).2 =
      (pagesObjs [exPage1, exPage2]).map
        (transferOne exGetFail exPutOk ("sb".toList) ("p".toList)
          ("db".toList) ("d".toList)) :=
  (c4_exit_status exFetch 2 exGetFail exPutOk ("sb".toList) ("p".toList)
      ("db".toList) ("d".toList) [exPage1, exPage2]).2
    ⟨by decide, by decide, trivial⟩
    (PagesShape.cons _ _ (by decide) (by decide)
      (PagesShape.last _ (by decide) (by decide)))
    (by decide)

/-- C5, counterexample: mirroring the source's own numbers (12 spawned tasks,
a pool of 4), the dispatch loop of `cp_action` spawns all 12 tasks without
ever blocking, so the trace consisting of the 12 spawns alone is an execution
the runtime can produce, and along it 12 tasks are simultaneously in flight —
more than the supposed limit of 4. -/
theorem c5_counterexample :
    spawnIdxs (cpSpawnEvents 12) = List.range 12 ∧
    finishAfterSpawn [] (cpSpawnEvents 12) = true ∧
    inFlightMax 0 (cpSpawnEvents 12) = 12 ∧ ¬ (12 ≤ 4) := by
  refine ⟨by decide, by decide, by decide, by decide⟩

/-- C5, amended: the dispatcher applies no admission control at all — it
spawns every per-object task immediately without blocking, so for every task
count `n` the all-spawns-first trace is a valid execution and reaches `n`
simultaneously in-flight tasks; the in-flight count is bounded only by the
number of listed objects, not by a configured concurrency limit. -/
theorem c5_no_admission_control (n : Nat) :
    ValidExecution n (cpSpawnEvents n) ∧ inFlightMax 0 (cpSpawnEvents n) = n := by
  refine ⟨⟨spawnIdxs_map_spawn (List.range n),
    finishAfterSpawn_spawns (List.range n) []⟩, ?_⟩
  have h := inFlightMax_spawns (List.range n) 0
  simpa using h

/-- C6, confirmed: when the get for an object fails, the transfer produces a
failure whose stage is the get call and issues no put request, and the
failing object leaves every sibling transfer's result exactly what its own
independent run produces. -/
theorem c6_get_failure (getFn : GetObjectRequest → Except Str GetObjectOutput)
    (putFn : PutObjectRequest → Except Str PutObjectOutput)
    (src_bucket src_key dst_bucket dst_key : Str)
    (obj : S3Object) (k e : Str) (hk : obj.key = some k)
    (hget : getFn { bucket := src_bucket, key := k } = Except.error e) :
    transferOne getFn putFn src_bucket src_key dst_bucket dst_key obj =
      (Outcome.failure Stage.get e, []) ∧
    ∀ objs₁ objs₂ : List S3Object,
      runTransfers getFn putFn src_bucket src_key dst_bucket dst_key
          (objs₁ ++ obj :: objs₂) =
        runTransfers getFn putFn src_bucket src_key dst_bucket dst_key objs₁ ++
          (Outcome.failure Stage.get e, []) ::
            runTransfers getFn putFn src_bucket src_key dst_bucket dst_key
              objs₂ := by
  have h1 : transferOne getFn putFn src_bucket src_key dst_bucket dst_key obj =
      (Outcome.failure Stage.get e, []) := by
    simp [transferOne, hk, hget]
  refine ⟨h1, ?_⟩
  intro objs₁ objs₂
  simp [runTransfers, h1]

/-- C6, witness: a concrete object whose get fails yields a get-stage failure
with no put issued. -/
theorem c6_get_failure_witness :
    transferOne exGetFail exPutOk ("sb".toList) ("p".toList) ("db".toList)
        ("d".toList) exObj1 =
      (Outcome.failure Stage.get ("boom".toList), []) :=
  (c6_get_failure exGetFail exPutOk ("sb".toList) ("p".toList) ("db".toList)
      ("d".toList) exObj1 ("p/x".toList) ("boom".toList) rfl rfl).1

/-- C7, code bug evaluated at the failing input: `S3Path::from_str` on the
malformed path "foo" hits the `.unwrap()` on the failed regex captures and
panics (modelled as `none`) instead of returning the `Err`/ParseError its
`Result` signature and the specification promise. -/
theorem c7_parse_panics :
    s3Captures ("foo".toList) = none ∧
    S3Path.from_str ("foo".toList) = none := by
  decide

/-- C8, counterexample: "s3://b/" parses successfully with a present but
empty key-or-prefix portion (capture group 2 is `Some("")`), and the
resulting prefix is also empty — so the prefix is empty without the portion
being absent, refuting the claim's "exactly when absent". -/
theorem c8_counterexample :
    s3Captures ("s3://b/".toList) = some ("b".toList, some []) ∧
    S3Path.from_str ("s3://b/".toList) =
      some { bucket := "b".toList, key := [] } ∧
    (some ([] : Str) : Option Str) ≠ none := by
  decide

/-- C8, amended: every successful parse yields a non-empty container, and the
prefix is empty exactly when the key-or-prefix portion after the container is
absent or is itself the empty string. -/
theorem c8_parse_invariants (s b : Str) (g2 : Option Str)
    (h : s3Captures s = some (b, g2)) :
    b ≠ [] ∧ (g2.getD [] = [] ↔ (g2 = none ∨ g2 = some [])) := by
  constructor
  · unfold s3Captures at h
    split at h
    · exact Option.noConfusion h
    · split at h
      · exact Option.noConfusion h
      · split at h <;>
          · simp only [Option.some.injEq, Prod.mk.injEq] at h
            obtain ⟨hb, -⟩ := h
            subst hb
            simp
  · cases g2 with
    | none => simp
    | some k => simp

/-- C8, witness for the amended theorem at the input "s3://b/k". -/
theorem c8_parse_invariants_witness :
    ("b".toList : Str) ≠ [] ∧
    ((some ("k".toList) : Option Str).getD [] = [] ↔
      ((some ("k".toList) : Option Str) = none ∨
        (some ("k".toList) : Option Str) = some [])) :=
  c8_parse_invariants ("s3://b/k".toList) ("b".toList) (some ("k".toList))
    (by decide)

/-- C9, confirmed: `cp_action` unconditionally unwraps the listed object's
`key` and the get response's `content_length`; when either optional field is
absent the transfer panics — it does not record a `Failure` outcome. -/
theorem c9_unwrap_preconditions
    (getFn : GetObjectRequest → Except Str GetObjectOutput)
    (putFn : PutObjectRequest → Except Str PutObjectOutput)
    (src_bucket src_key dst_bucket dst_key : Str) (obj : S3Object) :
    (obj.key = none →
      transferOne getFn putFn src_bucket src_key dst_bucket dst_key obj =
        (Outcome.panicked, [])) ∧
    (∀ (k : Str) (out : GetObjectOutput), obj.key = some k →
      getFn { bucket := src_bucket, key := k } = Except.ok out →
      out.content_length = none →
      transferOne getFn putFn src_bucket src_key dst_bucket dst_key obj =
        (Outcome.panicked, [])) := by
  constructor
  · intro hk
    simp [transferOne, hk]
  · intro k out hk hget hlen
    simp [transferOne, hk, hget, hlen]

/-- C9, witness: a keyless object descriptor panics, and so does an object
whose get response has no content length. -/
theorem c9_unwrap_preconditions_witness :
    transferOne exGetFail exPutOk ("sb".toList) ("p".toList) ("db".toList)
        ("d".toList) exObjNoKey = (Outcome.panicked, []) ∧
    transferOne exGetNoLen exPutOk ("sb".toList) ("p".toList) ("db".toList)
        ("d".toList) exObj1 = (Outcome.panicked, []) :=
  ⟨(c9_unwrap_preconditions exGetFail exPutOk ("sb".toList) ("p".toList)
      ("db".toList) ("d".toList) exObjNoKey).1 rfl,
    (c9_unwrap_preconditions exGetNoLen exPutOk ("sb".toList) ("p".toList)
      ("db".toList) ("d".toList) exObj1).2 ("p/x".toList)
      { body := none
        content_disposition := none
        content_encoding := none
        content_language := none
        content_length := none
        content_type := none
        metadata := none } rfl rfl rfl⟩

/-- C10, confirmed: with an empty destination prefix the joining slash is
still inserted, so the computed destination key is "/" followed by the
relative key — it starts with a slash and never equals the relative key
alone. -/
theorem c10_empty_dst_key (rel_key : Str) :
    dstKeyOf [] rel_key = '/' :: rel_key ∧
    ['/'] <+: dstKeyOf [] rel_key ∧
    dstKeyOf [] rel_key ≠ rel_key := by
  refine ⟨rfl, ⟨rel_key, rfl⟩, ?_⟩
  intro hcontra
  have hlen := congrArg List.length hcontra
  simp [dstKeyOf, trim_end_matches_char] at hlen
